import Mathlib

/-!
Shallow embedding of `src/Python/create_climatology/createclim_ts_template.py`
(the SubX daily-climatology script) and proofs about it.

The script builds, for one (lat, lon, pressure-level, model, variable) slot:
  * an ensemble mean of N member time series (lines 50-64),
  * a day-of-year climatology by `groupby('S.dayofyear').mean('S')` (line 67),
  * a 366-slot padding with NaN via `combine_first` (lines 74-79),
  * a periodic triangular smoothing: twice (wrap-extend by 15, centered
    rolling mean of width 31 with `min_periods=1`, trim 15) (lines 83-95),
  * a final `.sel(dayofyear=da_day_clim.dayofyear)` (line 97).

Every array operation of the script acts pointwise over the auxiliary lead
dimension `L`, so the embedding models a single `L`-slice.  A cell holds
either a number (modelled as a rational) or NaN; NaN is modelled as `none`.
-/

namespace SubX

/-- A cell value: `some q` is a numeric value, `none` models NaN (missing). -/
abbrev Val := Option ℚ

/-- Skip-NA mean, the reduction used by `mean(dim=...)`, `groupby(...).mean(...)`
and `rolling(..., min_periods=1).mean()`: average the non-missing entries,
NaN when there are none. -/
def nanmean (xs : List Val) : Val :=
  if (xs.filterMap id).length = 0 then none
  else some ((xs.filterMap id).sum / ((xs.filterMap id).length : ℚ))

/-- A calendar date (proleptic Gregorian), as carried by the `S` axis. -/
structure Date where
  year : Int
  month : Nat
  day : Nat
deriving DecidableEq

/-- Gregorian leap-year rule, as used by pandas timestamps. -/
def isLeap (y : Int) : Bool :=
  (y % 4 == 0 && y % 100 != 0) || (y % 400 == 0)

/-- Length of month `m` (1-12). -/
def monthDays (leap : Bool) (m : Nat) : Nat :=
  match m with
  | 1 => 31 | 2 => if leap then 29 else 28 | 3 => 31 | 4 => 30
  | 5 => 31 | 6 => 30 | 7 => 31 | 8 => 31 | 9 => 30 | 10 => 31
  | 11 => 30 | 12 => 31 | _ => 0

/-- Days in the year strictly before month `m`. -/
def daysBefore (leap : Bool) (m : Nat) : Nat :=
  ((List.range' 1 (m - 1)).map (monthDays leap)).sum

/-- `S.dayofyear`: 1-based ordinal position of the date inside its year
(1..365, or 1..366 in a leap year). -/
def Date.dayOfYear (d : Date) : Nat :=
  daysBefore (isLeap d.year) d.month + d.day

/-- A well-formed calendar date. -/
def Date.valid (d : Date) : Prop :=
  1 ≤ d.month ∧ d.month ≤ 12 ∧ 1 ≤ d.day ∧ d.day ≤ monthDays (isLeap d.year) d.month

instance (d : Date) : Decidable d.valid := by
  unfold Date.valid; infer_instance

/-- Chronological order on dates (what label-based `slice` selection uses). -/
def Date.le (a b : Date) : Prop :=
  a.year < b.year ∨ (a.year = b.year ∧
    (a.month < b.month ∨ (a.month = b.month ∧ a.day ≤ b.day)))

instance (a b : Date) : Decidable (Date.le a b) := by
  unfold Date.le; infer_instance

/-- `strftime('%Y-%m-%d')` on a date: zero-pad a 1- or 2-digit field. -/
def pad2 (n : Nat) : String :=
  if n < 10 then "0" ++ toString n else toString n

/-- `pd.Timestamp(...).strftime('%Y-%m-%d')`. -/
def formatDate (d : Date) : String :=
  toString d.year ++ "-" ++ pad2 d.month ++ "-" ++ pad2 d.day

/-- The ensemble after `xr.concat(_l, dim='M')` (lines 39-48): the `M`
dimension concatenation aligns all members on the union time axis `times`;
`val m d` is member `m`'s value at date `d`, `none` where that member has no
sample (alignment fills NaN there). -/
structure Ensemble where
  times : List Date
  nens : Nat
  val : Nat → Date → Val

/-- Lines 61-64: `da.mean(dim='M')` when `nens > 1` (skip-NA mean across
members at each timestamp), `da.copy()` (the single member) otherwise. -/
def ensMean (e : Ensemble) : List (Date × Val) :=
  if 1 < e.nens then
    e.times.map (fun d => (d, nanmean ((List.range e.nens).map (fun m => e.val m d))))
  else
    e.times.map (fun d => (d, e.val 0 d))

/-- Line 52: `da.sel(S=slice(starttime, endtime))` — keep the timestamps in
the closed interval `[starttime, endtime]`.  An empty selection is returned
as an empty axis; no exception is raised. -/
def selSliceS (e : Ensemble) (starttime endtime : Date) : Ensemble :=
  { e with times := e.times.filter (fun d => decide (Date.le starttime d ∧ Date.le d endtime)) }

/-- Result of lines 50-64: the ensemble-mean series plus the effective
start/end date strings used for the output file names.  `none` models the
`IndexError` the script would hit reading `da.S.values[0]` of an empty axis. -/
structure AggResult where
  series : List (Date × Val)
  starttime : Option String
  endtime : Option String

/-- Lines 50-64 of the script: optional time subsampling (before the
ensemble reduction), effective-date bookkeeping, then the ensemble mean.
The shell substitutes ISO `yyyy-mm-dd` strings for `startS`/`endS`; they are
modelled by the dates they denote, formatted back when reported. -/
def aggregate (e : Ensemble) (subsampletime : Bool) (starttime endtime : Date) :
    AggResult :=
  if subsampletime then
    { series := ensMean (selSliceS e starttime endtime),
      starttime := some (formatDate starttime),
      endtime := some (formatDate endtime) }
  else
    { series := ensMean e,
      starttime := e.times.head?.map formatDate,
      endtime := e.times.getLast?.map formatDate }

/-- The distinct day-of-year keys occurring in a series, in increasing order
(the `dayofyear` coordinate produced by `groupby('S.dayofyear')`). -/
def dayKeys (s : List (Date × Val)) : List Nat :=
  List.insertionSort (· ≤ ·) ((s.map (fun p => p.1.dayOfYear)).dedup)

/-- The skip-NA mean of the group of samples falling on day-of-year `d`. -/
def groupMean (s : List (Date × Val)) (d : Nat) : Val :=
  nanmean ((s.filter (fun p => p.1.dayOfYear == d)).map Prod.snd)

/-- Line 67: `da_ensmean.groupby('S.dayofyear').mean('S')` — the occurring
day-of-year keys in increasing order, each mapped to the skip-NA mean over
its group. -/
def da_day_clim (s : List (Date × Val)) : List (Nat × Val) :=
  (dayKeys s).map (fun d => (d, groupMean s d))

/-- Lines 75-78: the all-NaN template `_da` indexed by `dayofyear = 1..366`. -/
def nanTemplate : List (Nat × Val) :=
  (List.range' 1 366).map (fun d => (d, (none : Val)))

/-- The value `self.combine_first(other)` holds at key `d`: `self`'s value
where `self` has the key and a non-null value, otherwise `other`'s value
(null if the key is absent there too). -/
def cfVal (self other : List (Nat × Val)) (d : Nat) : Val :=
  match self.find? (fun p => p.1 == d) with
  | some p =>
    match p.2 with
    | some q => some q
    | none => (other.find? (fun p => p.1 == d)).bind (fun p => p.2)
  | none => (other.find? (fun p => p.1 == d)).bind (fun p => p.2)

/-- `self.combine_first(other)` on day-of-year-indexed arrays: the union of
the two key sets in increasing order, each key paired with `cfVal`. -/
def combineFirst (self other : List (Nat × Val)) : List (Nat × Val) :=
  (List.insertionSort (· ≤ ·) ((self.map Prod.fst ++ other.map Prod.fst).dedup)).map
    (fun d => (d, cfVal self other d))

/-- Line 79: `da_day_clim.combine_first(_da)` — pad the grouped climatology
with NaN onto the full 366-slot domain. -/
def padWithNan (g : List (Nat × Val)) : List (Nat × Val) :=
  combineFirst g nanTemplate

/-- Lines 74-79 applied to the grouped climatology of a series. -/
def da_day_clim_wnan (s : List (Date × Val)) : List (Nat × Val) :=
  padWithNan (da_day_clim s)

/-- Lines 86-89: `xr.concat([x[-15:], x, x[:15]], 'dayofyear')` — wrap-extend
a sequence by its last 15 and first 15 entries. -/
def wrapExtend (xs : List α) : List α :=
  xs.drop (xs.length - 15) ++ xs ++ xs.take 15

/-- Positions covered by the centered width-31 window at position `i`
(`rolling(dayofyear=31, center=True)`): indices `i-15 .. i+15`, clipped to
the array (out-of-range positions contribute nothing). -/
def window (xs : List α) (i : Nat) : List α :=
  (xs.take (i + 16)).drop (i - 15)

/-- Lines 91-93: `rolling(dayofyear=31, center=True, min_periods=1).mean()` —
at every position, the skip-NA mean of the centered width-31 window. -/
def rollMean31 (xs : List Val) : List Val :=
  (List.range xs.length).map (fun i => nanmean (window xs i))

/-- One pass of the loop body, lines 86-95: wrap-extend, centered rolling
mean of width 31 with `min_periods=1`, then `isel(dayofyear=slice(15, -15))`
(drop 15 entries at each end). -/
def smoothOnce (xs : List Val) : List Val :=
  ((rollMean31 (wrapExtend xs)).drop 15).take ((wrapExtend xs).length - 30)

/-- Lines 84-95: `for i in range(2)` — the pass applied twice, the second
pass consuming the first pass's output. -/
def smoothTwice (xs : List Val) : List Val :=
  smoothOnce (smoothOnce xs)

/-- Line 97: `sel(dayofyear=days)` — re-index a day-of-year-indexed array
onto the key list `days` (every requested key is present in all uses below,
so the `none` default of `find?` is never taken). -/
def selDays (sm : List (Nat × Val)) (days : List Nat) : List (Nat × Val) :=
  days.map (fun d => (d, (sm.find? (fun p => p.1 == d)).bind (fun p => p.2)))

/-- Lines 83-97: the smoothed climatology the script saves — pad, smooth
twice, then `sel(dayofyear=da_day_clim.dayofyear)`, i.e. re-select the keys
of the *grouped* (pre-padding) climatology. -/
def da_day_clim_smooth (s : List (Date × Val)) : List (Nat × Val) :=
  selDays
    (((da_day_clim_wnan s).map Prod.fst).zip (smoothTwice ((da_day_clim_wnan s).map Prod.snd)))
    ((da_day_clim s).map Prod.fst)

/-! ### Analysis helpers (connected to the embedding by proved lemmas) -/

/-- Missingness mask: `maskVal v b` is the cell value of a slot that holds
`v` when `b = true` and NaN when `b = false`. -/
def maskVal (v : ℚ) (b : Bool) : Val :=
  if b then some v else none

/-- The Bool shadow of one smoothing pass: tracks, for inputs all of whose
non-missing entries equal one common value, which output slots are
non-missing (a width-31 window yields a value iff it contains a `true`).
`smoothOnceBool_comm` proves the correspondence with `smoothOnce`. -/
def smoothOnceBool (p : List Bool) : List Bool :=
  (((List.range (wrapExtend p).length).map
      (fun i => (window (wrapExtend p) i).any id)).drop 15).take
    ((wrapExtend p).length - 30)

/-- Build the date of year `y` with day-of-year `n` (a test-input
constructor for witnesses; not part of the script). -/
def dateFromDoy (y : Int) (n : Nat) : Date :=
  match (List.range' 1 12).find? (fun m => decide (n ≤ daysBefore (isLeap y) m + monthDays (isLeap y) m)) with
  | some m => ⟨y, m, n - daysBefore (isLeap y) m⟩
  | none => ⟨y, 12, 31⟩

/-! ### Concrete test inputs -/

/-- A one-sample series: 2001-01-01 with value 5. -/
def cex1 : List (Date × Val) := [(⟨2001, 1, 1⟩, some 5)]

/-- A one-sample series on day-of-year 366 (2000-12-31, a leap year) that
contains no Feb 29. -/
def cex3 : List (Date × Val) := [(⟨2000, 12, 31⟩, some 5)]

/-- A two-member ensemble with two timestamps, constant value 1. -/
def cex4 : Ensemble := ⟨[⟨2001, 1, 1⟩, ⟨2001, 1, 2⟩], 2, fun _ _ => some 1⟩

/-- A two-member ensemble with two timestamps, constant value 3. -/
def ensB : Ensemble := ⟨[⟨2001, 1, 1⟩, ⟨2001, 1, 2⟩], 2, fun _ _ => some 3⟩

/-- A series covering every day-of-year 1..365 of the non-leap year 2001
with value 1. -/
def s365 : List (Date × Val) :=
  (List.range' 1 365).map (fun d => (dateFromDoy 2001 d, some 1))

/-! ### Lemmas about `nanmean` -/

theorem filterMap_id_eq_nil_iff (xs : List Val) :
    xs.filterMap id = [] ↔ ∀ y ∈ xs, y = none := by
  rw [List.filterMap_eq_nil_iff]
  simp only [id_eq]

theorem nanmean_eq_none_iff (xs : List Val) :
    nanmean xs = none ↔ ∀ y ∈ xs, y = none := by
  rw [← filterMap_id_eq_nil_iff, ← List.length_eq_zero]
  unfold nanmean
  split
  · next h => exact iff_of_true rfl h
  · next h => exact iff_of_false (by simp) h

theorem sum_replicate_div (k : Nat) (v : ℚ) (hk : k ≠ 0) :
    (List.replicate k v).sum / ((List.replicate k v).length : ℚ) = v := by
  rw [List.sum_replicate, List.length_replicate, nsmul_eq_mul]
  exact mul_div_cancel_left₀ v (by exact_mod_cast hk)

theorem filterMap_id_replicate_some (k : Nat) (v : ℚ) :
    (List.replicate k (some v : Val)).filterMap id = List.replicate k v := by
  induction k with
  | zero => rfl
  | succ n ih => simp only [List.replicate_succ, List.filterMap_cons, id_eq, ih]

theorem filterMap_id_replicate_none (k : Nat) :
    (List.replicate k (none : Val)).filterMap id = [] := by
  induction k with
  | zero => rfl
  | succ n ih => simp only [List.replicate_succ, List.filterMap_cons, id_eq, ih]

theorem nanmean_replicate_some (k : Nat) (v : ℚ) (hk : k ≠ 0) :
    nanmean (List.replicate k (some v)) = some v := by
  unfold nanmean
  rw [filterMap_id_replicate_some]
  rw [if_neg (by simpa using hk)]
  rw [sum_replicate_div k v hk]

theorem nanmean_replicate_none (k : Nat) :
    nanmean (List.replicate k (none : Val)) = none := by
  unfold nanmean
  rw [filterMap_id_replicate_none]
  rfl

theorem nanmean_bounds (xs : List Val) (lo hi : ℚ)
    (h : ∀ q : ℚ, some q ∈ xs → lo ≤ q ∧ q ≤ hi)
    (q : ℚ) (hq : nanmean xs = some q) : lo ≤ q ∧ q ≤ hi := by
  unfold nanmean at hq
  split at hq
  · exact absurd hq (by simp)
  · next hlen =>
    have hmem : ∀ r ∈ xs.filterMap id, lo ≤ r ∧ r ≤ hi := by
      intro r hr
      rcases List.mem_filterMap.mp hr with ⟨y, hy, hyr⟩
      cases y with
      | none => exact absurd hyr (by simp)
      | some z =>
        have hz : z = r := by simpa using hyr
        subst hz
        exact h _ hy
    have hq' : (xs.filterMap id).sum / (((xs.filterMap id).length : ℚ)) = q :=
      Option.some_injective _ hq
    have hlpos : 0 < ((xs.filterMap id).length : ℚ) := by
      have := Nat.pos_of_ne_zero hlen
      exact_mod_cast this
    have hsum_le : (xs.filterMap id).sum ≤ (xs.filterMap id).length • hi :=
      List.sum_le_card_nsmul _ hi (fun x hx => (hmem x hx).2)
    have hsum_ge : (xs.filterMap id).length • lo ≤ (xs.filterMap id).sum :=
      List.card_nsmul_le_sum _ lo (fun x hx => (hmem x hx).1)
    rw [nsmul_eq_mul] at hsum_le hsum_ge
    constructor
    · rw [← hq', le_div_iff₀ hlpos, mul_comm]
      exact hsum_ge
    · rw [← hq', div_le_iff₀ hlpos, mul_comm]
      exact hsum_le

/-! ### Lemmas about `wrapExtend`, `window` and the rolling mean -/

theorem wrapExtend_map (f : α → β) (xs : List α) :
    wrapExtend (xs.map f) = (wrapExtend xs).map f := by
  simp [wrapExtend, List.map_drop, List.map_take]

theorem window_map (f : α → β) (xs : List α) (i : Nat) :
    window (xs.map f) i = (window xs i).map f := by
  simp [window, List.map_drop, List.map_take]

theorem window_length (xs : List α) (i : Nat) :
    (window xs i).length = min (i + 16) xs.length - (i - 15) := by
  simp [window]

theorem mem_of_mem_window (xs : List α) (i : Nat) (y : α) (h : y ∈ window xs i) :
    y ∈ xs :=
  List.mem_of_mem_take (List.mem_of_mem_drop h)

theorem mem_of_mem_wrapExtend (xs : List α) (y : α) (h : y ∈ wrapExtend xs) :
    y ∈ xs := by
  unfold wrapExtend at h
  rcases List.mem_append.mp h with h1 | h2
  · rcases List.mem_append.mp h1 with h3 | h4
    · exact List.mem_of_mem_drop h3
    · exact h4
  · exact List.mem_of_mem_take h2

theorem wrapExtend_replicate (x : α) :
    wrapExtend (List.replicate 366 x) = List.replicate 396 x := by
  simp only [wrapExtend, List.length_replicate, List.take_replicate, List.drop_replicate]
  norm_num

theorem window_replicate (x : α) (n i : Nat) :
    window (List.replicate n x) i = List.replicate (min (i + 16) n - (i - 15)) x := by
  simp [window, List.take_replicate, List.drop_replicate]

theorem rollMean31_replicate_some (n : Nat) (v : ℚ) :
    rollMean31 (List.replicate n (some v)) = List.replicate n (some v) := by
  unfold rollMean31
  rw [List.length_replicate]
  apply List.ext_getElem?
  intro i
  by_cases h : i < n
  · rw [List.getElem?_map, List.getElem?_range h, Option.map_some',
      List.getElem?_replicate, if_pos h]
    congr 1
    rw [window_replicate]
    exact nanmean_replicate_some _ v (by omega)
  · rw [List.getElem?_map, List.getElem?_eq_none (by simpa using Nat.le_of_not_lt h),
      Option.map_none', List.getElem?_replicate, if_neg h]

theorem smoothOnce_replicate (v : ℚ) :
    smoothOnce (List.replicate 366 (some v)) = List.replicate 366 (some v) := by
  unfold smoothOnce
  rw [wrapExtend_replicate, rollMean31_replicate_some, List.drop_replicate,
    List.length_replicate, List.take_replicate]
  norm_num

theorem wrapExtend_length_366 (xs : List Val) (h : xs.length = 366) :
    (wrapExtend xs).length = 396 := by
  simp [wrapExtend, h]

theorem smoothOnce_length_366 (xs : List Val) (h : xs.length = 366) :
    (smoothOnce xs).length = 366 := by
  have hext := wrapExtend_length_366 xs h
  simp [smoothOnce, rollMean31, hext]

theorem smoothOnce_getElem (xs : List Val) (h : xs.length = 366)
    (i : Nat) (hi : i < 366) :
    (smoothOnce xs)[i]? = some (nanmean (window (wrapExtend xs) (i + 15))) := by
  have hext := wrapExtend_length_366 xs h
  unfold smoothOnce rollMean31
  rw [hext]
  rw [List.getElem?_take_of_lt (by omega : i < 396 - 30), List.getElem?_drop,
    List.getElem?_map, List.getElem?_range (by omega : 15 + i < 396), Option.map_some']
  rw [Nat.add_comm 15 i]

theorem smoothOnce_bounds (xs : List Val) (lo hi : ℚ)
    (h : ∀ q : ℚ, some q ∈ xs → lo ≤ q ∧ q ≤ hi) :
    ∀ q : ℚ, some q ∈ smoothOnce xs → lo ≤ q ∧ q ≤ hi := by
  intro q hq
  unfold smoothOnce at hq
  have h1 : some q ∈ rollMean31 (wrapExtend xs) :=
    List.mem_of_mem_drop (List.mem_of_mem_take hq)
  rcases List.mem_map.mp h1 with ⟨i, _, hmean⟩
  refine nanmean_bounds (window (wrapExtend xs) i) lo hi ?_ q hmean
  intro r hr
  exact h r (mem_of_mem_wrapExtend xs _ (mem_of_mem_window _ i _ hr))

theorem smoothTwice_bounds (xs : List Val) (lo hi : ℚ)
    (h : ∀ q : ℚ, some q ∈ xs → lo ≤ q ∧ q ≤ hi) :
    ∀ q : ℚ, some q ∈ smoothTwice xs → lo ≤ q ∧ q ≤ hi :=
  smoothOnce_bounds _ lo hi (smoothOnce_bounds xs lo hi h)

/-! ### The Bool shadow of a smoothing pass -/

theorem filterMap_id_map_maskVal (v : ℚ) (l : List Bool) :
    (l.map (maskVal v)).filterMap id = List.replicate (l.count true) v := by
  induction l with
  | nil => rfl
  | cons b t ih =>
    cases b with
    | false => simp [List.filterMap_cons, maskVal, ih, List.count_cons]
    | true => simp [List.filterMap_cons, maskVal, ih, List.count_cons, List.replicate_succ]

theorem nanmean_map_maskVal (v : ℚ) (l : List Bool) :
    nanmean (l.map (maskVal v)) = maskVal v (l.any id) := by
  unfold nanmean
  rw [filterMap_id_map_maskVal]
  by_cases hmem : true ∈ l
  · have hc : l.count true ≠ 0 := by
      have := List.count_pos_iff.mpr hmem
      omega
    rw [if_neg (by simpa using hc), sum_replicate_div _ v hc]
    have : l.any id = true := List.any_eq_true.mpr ⟨true, hmem, rfl⟩
    rw [this, maskVal, if_pos rfl]
  · have hc : l.count true = 0 := List.count_eq_zero.mpr hmem
    rw [if_pos (by simpa using hc)]
    have : l.any id = false := by
      rw [List.any_eq_false]
      intro b hb
      cases b
      · simp
      · exact absurd hb hmem
    rw [this, maskVal, if_neg (by simp)]

theorem smoothOnceBool_comm (v : ℚ) (p : List Bool) :
    smoothOnce (p.map (maskVal v)) = (smoothOnceBool p).map (maskVal v) := by
  unfold smoothOnce smoothOnceBool rollMean31
  rw [wrapExtend_map, List.length_map]
  simp only [List.map_take, List.map_drop, List.map_map]
  congr 1
  congr 1
  apply List.map_congr_left
  intro i _
  simp only [Function.comp_apply]
  rw [window_map, nanmean_map_maskVal]

set_option maxRecDepth 100000 in
/-- With days 1..365 valid and day 366 missing, every window of both passes
contains a valid entry: the Bool shadow of the double pass is all-`true`. -/
theorem smoothOnceBool_pat365 :
    smoothOnceBool (List.replicate 365 true ++ [false]) = List.replicate 366 true := by
  decide

/-! ### Lemmas about keyed (day-of-year-indexed) lists -/

theorem find?_map_keyed (ks : List Nat) (f : Nat → Val) (d : Nat) :
    (ks.map (fun k => (k, f k))).find? (fun p => p.1 == d) =
      if d ∈ ks then some (d, f d) else none := by
  induction ks with
  | nil => simp
  | cons k t ih =>
    by_cases hk : k = d
    · subst hk
      simp [List.find?_cons]
    · have hb : ((k, f k).1 == d) = false := by simpa using hk
      simp only [List.map_cons, List.find?_cons, hb, cond_false, ih, List.mem_cons]
      by_cases hd : d ∈ t
      · rw [if_pos hd, if_pos (Or.inr hd)]
      · rw [if_neg hd, if_neg ?_]
        rintro (h | h)
        · exact hk h.symm
        · exact hd h

theorem range'_1_366_nodup : (List.range' 1 366).Nodup :=
  List.nodup_range' 1 366

theorem range'_1_366_sorted : List.Sorted (· ≤ ·) (List.range' 1 366) :=
  (List.pairwise_lt_range' 1 366).imp (fun hab => le_of_lt hab)

theorem sortedKeys_eq_range' (ks : List Nat)
    (hks : ∀ k ∈ ks, k ∈ List.range' 1 366) :
    List.insertionSort (· ≤ ·) ((ks ++ List.range' 1 366).dedup) =
      List.range' 1 366 := by
  apply List.eq_of_perm_of_sorted (r := (· ≤ ·))
  · refine (List.perm_insertionSort _ _).trans ?_
    rw [List.perm_ext_iff_of_nodup (List.nodup_dedup _) range'_1_366_nodup]
    intro a
    rw [List.mem_dedup, List.mem_append]
    constructor
    · rintro (h | h)
      · exact hks _ h
      · exact h
    · exact Or.inr
  · exact List.sorted_insertionSort _ _
  · exact range'_1_366_sorted

theorem nanTemplate_map_fst : nanTemplate.map Prod.fst = List.range' 1 366 := by
  rw [nanTemplate, List.map_map,
    show (Prod.fst ∘ fun d : Nat => ((d, (none : Val)))) = id from rfl, List.map_id]

theorem cfVal_nanTemplate (g : List (Nat × Val)) (d : Nat) :
    cfVal g nanTemplate d =
      match g.find? (fun p => p.1 == d) with
      | some p => p.2
      | none => none := by
  have ht : (nanTemplate.find? (fun p => p.1 == d)).bind (fun p => p.2) = none := by
    unfold nanTemplate
    rw [find?_map_keyed]
    split <;> simp
  unfold cfVal
  cases hf : g.find? (fun p => p.1 == d) with
  | none => simp [ht]
  | some p => cases hp : p.2 <;> simp [hp, ht]

theorem padWithNan_keyed (g : List (Nat × Val))
    (hk : ∀ p ∈ g, p.1 ∈ List.range' 1 366) :
    padWithNan g = (List.range' 1 366).map (fun d => (d, cfVal g nanTemplate d)) := by
  unfold padWithNan combineFirst
  rw [nanTemplate_map_fst]
  rw [sortedKeys_eq_range' _ (by
    intro k hkk
    rcases List.mem_map.mp hkk with ⟨p, hp, rfl⟩
    exact hk p hp)]

/-! ### Lemmas about the grouped climatology -/

theorem mem_dayKeys (s : List (Date × Val)) (d : Nat) :
    d ∈ dayKeys s ↔ ∃ p ∈ s, p.1.dayOfYear = d := by
  unfold dayKeys
  rw [(List.perm_insertionSort _ _).mem_iff, List.mem_dedup, List.mem_map]

theorem dayKeys_nodup (s : List (Date × Val)) : (dayKeys s).Nodup :=
  ((List.perm_insertionSort _ _).nodup_iff).mpr (List.nodup_dedup _)

theorem find?_da_day_clim (s : List (Date × Val)) (d : Nat) :
    (da_day_clim s).find? (fun p => p.1 == d) =
      if d ∈ dayKeys s then some (d, groupMean s d) else none :=
  find?_map_keyed _ _ _

theorem mem_da_day_clim (s : List (Date × Val)) (p : Nat × Val)
    (hp : p ∈ da_day_clim s) :
    p.1 ∈ dayKeys s ∧ p.2 = groupMean s p.1 := by
  rcases List.mem_map.mp hp with ⟨d, hd, rfl⟩
  exact ⟨hd, rfl⟩

/-! ### Calendar bounds -/

theorem daysBefore_add_monthDays_le (leap : Bool) (m : Nat) (h : m ≤ 12) :
    daysBefore leap m + monthDays leap m ≤ if leap then 366 else 365 := by
  cases leap <;> rcases m with _|_|_|_|_|_|_|_|_|_|_|_|_|m <;> first | decide | omega

theorem dayOfYear_bounds (d : Date) (h : d.valid) :
    1 ≤ d.dayOfYear ∧ d.dayOfYear ≤ 366 := by
  obtain ⟨y, m, dy⟩ := d
  obtain ⟨h1, h2, h3, h4⟩ := h
  have hb := daysBefore_add_monthDays_le (isLeap y) m h2
  have hb' : daysBefore (isLeap y) m + monthDays (isLeap y) m ≤ 366 :=
    le_trans hb (by cases isLeap y <;> simp)
  simp only [Date.dayOfYear] at *
  omega

theorem dayOfYear_mem_range (d : Date) (h : d.valid) :
    d.dayOfYear ∈ List.range' 1 366 := by
  rw [List.mem_range'_1]
  have := dayOfYear_bounds d h
  omega

/-! ### Lemmas about the ensemble mean and the aggregator -/

theorem map_fst_keyed {α β : Type} (ts : List α) (f : α → β) :
    (ts.map (fun d => (d, f d))).map Prod.fst = ts := by
  rw [List.map_map, show (Prod.fst ∘ fun d => (d, f d)) = id from rfl, List.map_id]

theorem ensMean_map_fst (e : Ensemble) : (ensMean e).map Prod.fst = e.times := by
  unfold ensMean
  split <;> exact map_fst_keyed _ _

theorem ensMean_empty (e : Ensemble) (h : e.times = []) : ensMean e = [] := by
  unfold ensMean
  rw [h]
  split <;> rfl

theorem selDays_map_fst (sm : List (Nat × Val)) (days : List Nat) :
    (selDays sm days).map Prod.fst = days :=
  map_fst_keyed _ _

theorem selDays_length (sm : List (Nat × Val)) (days : List Nat) :
    (selDays sm days).length = days.length := by
  unfold selDays
  rw [List.length_map]

/-! ### Evaluation lemmas for concrete inputs

Rational arithmetic (`Rat.add`, `Rat.div`, ...) normalizes through `Nat.gcd`
and therefore does not reduce inside `decide`; concrete climatology values
are instead computed through the following small lemmas, keeping `decide`
for the `Nat`-level and structural parts. -/

theorem nanmean_singleton (v : ℚ) : nanmean [some v] = some v := by
  unfold nanmean
  rw [show (([some v] : List Val).filterMap id) = [v] from rfl]
  norm_num [List.sum_cons]

theorem da_day_clim_cex1 : da_day_clim cex1 = [(1, some 5)] := by
  have hk : dayKeys cex1 = [1] := by decide
  have hf : (cex1.filter (fun p => p.1.dayOfYear == 1)).map Prod.snd = [some 5] := by
    decide
  unfold da_day_clim
  rw [hk, List.map_cons, List.map_nil]
  have hg : groupMean cex1 1 = some 5 := by
    unfold groupMean
    rw [hf, nanmean_singleton]
  rw [hg]

set_option maxRecDepth 40000 in
/-- The non-missing padded values of the one-day climatology of `cex1`. -/
theorem padded_cex1_vals :
    ((padWithNan [((1 : Nat), (some (5:ℚ) : Val))]).map Prod.snd).filterMap id
      = [5] := by
  rw [padWithNan_keyed _ (by decide), List.map_map]
  have hcf : ∀ d ∈ List.range' 1 366,
      (Prod.snd ∘ fun d => (d, cfVal [((1 : Nat), (some (5:ℚ) : Val))] nanTemplate d)) d
        = (fun d => if d = 1 then some (5:ℚ) else none) d := by
    intro d hd
    simp only [Function.comp_apply]
    rw [cfVal_nanTemplate]
    by_cases h1 : d = 1
    · subst h1
      rfl
    · have hb : (((1 : Nat), (some (5:ℚ) : Val)).1 == d) = false := by
        simp only [beq_eq_false_iff_ne, ne_eq]
        exact fun h => h1 h.symm
      rw [if_neg h1, List.find?_cons, hb]
      rfl
  rw [List.map_congr_left hcf]
  decide

theorem da_day_clim_cex3 : da_day_clim cex3 = [(366, some 5)] := by
  have hk : dayKeys cex3 = [366] := by decide
  have hf : (cex3.filter (fun p => p.1.dayOfYear == 366)).map Prod.snd = [some 5] := by
    decide
  unfold da_day_clim
  rw [hk, List.map_cons, List.map_nil]
  have hg : groupMean cex3 366 = some 5 := by
    unfold groupMean
    rw [hf, nanmean_singleton]
  rw [hg]

/-! ### Claim theorems -/

/-- C1 (amended): the final `sel(dayofyear=da_day_clim.dayofyear)` re-selects
the key set of the *grouped, pre-padding* climatology, so the saved smoothed
climatology has exactly the grouped climatology's day-of-year index set —
366 entries only when every day-of-year 1..366 received a sample. -/
theorem smooth_sel_keys_match_grouped (s : List (Date × Val)) :
    (da_day_clim_smooth s).map Prod.fst = (da_day_clim s).map Prod.fst := by
  unfold da_day_clim_smooth
  exact selDays_map_fst _ _

/-- C1 (counterexample): a series with one non-missing sample for which the
smoothed climatology the script saves has 1 entry, not 366. -/
theorem smooth_output_can_have_fewer_than_366 :
    (∃ p ∈ cex1, p.2 ≠ none) ∧ (da_day_clim_smooth cex1).length ≠ 366 := by
  constructor
  · decide
  · unfold da_day_clim_smooth
    rw [selDays_length, List.length_map, da_day_clim_cex1]
    decide

/-- C2 (confirmed): each smoothing pass wrap-extends the 366-entry sequence
to 396 entries, takes the centered width-31 skip-NA moving average (a
position is missing iff its whole window is missing, `min_periods=1`),
trims 15 entries from each end restoring 366 entries, and the full
smoothing is exactly two such passes, the second consuming the first. -/
theorem smoothing_pass_structure (xs : List Val) (h : xs.length = 366) :
    (wrapExtend xs).length = 396
    ∧ (smoothOnce xs).length = 366
    ∧ (∀ i, i < 366 →
        ((window (wrapExtend xs) (i + 15)).length = 31
         ∧ (smoothOnce xs)[i]? = some (nanmean (window (wrapExtend xs) (i + 15)))
         ∧ (nanmean (window (wrapExtend xs) (i + 15)) = none
              ↔ ∀ y ∈ window (wrapExtend xs) (i + 15), y = none)))
    ∧ smoothTwice xs = smoothOnce (smoothOnce xs) := by
  have hext := wrapExtend_length_366 xs h
  refine ⟨hext, smoothOnce_length_366 xs h, ?_, rfl⟩
  intro i hi
  refine ⟨?_, smoothOnce_getElem xs h i hi, nanmean_eq_none_iff _⟩
  rw [window_length, hext]
  omega

/-- C2 (witness): the pass structure at the all-5 climatology. -/
theorem smoothing_pass_structure_witness :
    (List.replicate 366 (some (5:ℚ) : Val)).length = 366
    ∧ (smoothOnce (List.replicate 366 (some (5:ℚ)))).length = 366 := by
  have h : (List.replicate 366 (some (5:ℚ) : Val)).length = 366 := by
    rw [List.length_replicate]
  exact ⟨h, (smoothing_pass_structure _ h).2.1⟩

/-- C5 (confirmed): with day 366 missing and days 1..365 all equal to `v`,
the smoothed value at day 366 (position 365) exists and equals `v`. -/
theorem smooth_fills_missing_boundary (v : ℚ) :
    (smoothTwice (List.replicate 365 (some v) ++ [none]))[365]? = some (some v) := by
  have hx : (List.replicate 365 (some v : Val) ++ [(none : Val)])
      = (List.replicate 365 true ++ [false]).map (maskVal v) := by
    rw [List.map_append, List.map_replicate]
    rfl
  rw [hx]
  unfold smoothTwice
  rw [smoothOnceBool_comm, smoothOnceBool_pat365, List.map_replicate,
    show maskVal v true = some v from rfl, smoothOnce_replicate,
    List.getElem?_replicate]
  norm_num

/-- C6 (confirmed): a constant 366-day climatology with no missing entries
smooths to the same constant at every index after both passes. -/
theorem smooth_constant_is_identity (v : ℚ) :
    smoothTwice (List.replicate 366 (some v)) = List.replicate 366 (some v) := by
  unfold smoothTwice
  rw [smoothOnce_replicate, smoothOnce_replicate]

/-- C7 (confirmed): for `N ≥ 1` pairwise-identical members the ensemble mean
equals the single member: `mean(dim='M')` (skip-NA) for `N > 1`, pass-through
copy for `N = 1`. -/
theorem ensMean_of_identical_members (e : Ensemble) (h1 : 1 ≤ e.nens)
    (hid : ∀ m, m < e.nens → ∀ d, e.val m d = e.val 0 d) :
    ensMean e = e.times.map (fun d => (d, e.val 0 d)) := by
  unfold ensMean
  by_cases h2 : 1 < e.nens
  · rw [if_pos h2]
    apply List.map_congr_left
    intro d _
    have hrepl : (List.range e.nens).map (fun m => e.val m d)
        = List.replicate e.nens (e.val 0 d) := by
      rw [List.eq_replicate_iff]
      refine ⟨by simp, ?_⟩
      intro b hb
      rcases List.mem_map.mp hb with ⟨m, hm, rfl⟩
      exact hid m (List.mem_range.mp hm) d
    rw [hrepl]
    cases hv : e.val 0 d with
    | some q => rw [nanmean_replicate_some _ _ (by omega)]
    | none => rw [nanmean_replicate_none]
  · rw [if_neg h2]

/-- C7 (witness): two identical members, mean equals the member. -/
theorem ensMean_of_identical_members_witness :
    1 ≤ ensB.nens ∧ ensMean ensB = ensB.times.map (fun d => (d, ensB.val 0 d)) :=
  ⟨by decide, ensMean_of_identical_members ensB (by decide) (fun _ _ _ => rfl)⟩

/-- C3 (amended): when every sample's day-of-year lies in 1..365 (so in
particular no sample falls on day-of-year 366 — neither Feb 29 nor Dec 31
of a leap year) and every day-of-year 1..365 receives at least one
non-missing sample, the grouped climatology has no day-366 entry (it is
absent, the padding supplies the missing marker), the padded climatology
covers exactly the keys 1..366, and its unique missing entry sits at 366. -/
theorem padded_missing_only_at_366_of_coverage (s : List (Date × Val))
    (hdoy : ∀ p ∈ s, 1 ≤ p.1.dayOfYear ∧ p.1.dayOfYear ≤ 365)
    (hcov : ∀ d ∈ List.range' 1 365, ∃ p ∈ s, p.1.dayOfYear = d ∧ p.2 ≠ none) :
    (∀ p ∈ da_day_clim s, p.1 ≠ 366) ∧
    ((da_day_clim_wnan s).map Prod.fst = List.range' 1 366) ∧
    (∀ p ∈ da_day_clim_wnan s, (p.2 = none ↔ p.1 = 366)) := by
  have hk366 : (366 : Nat) ∉ dayKeys s := by
    rw [mem_dayKeys]
    rintro ⟨p, hp, hdp⟩
    have := (hdoy p hp).2
    omega
  have hkeysrange : ∀ p ∈ da_day_clim s, p.1 ∈ List.range' 1 366 := by
    intro p hp
    obtain ⟨hk, _⟩ := mem_da_day_clim s p hp
    rcases (mem_dayKeys s p.1).mp hk with ⟨q, hq, hdq⟩
    have := hdoy q hq
    rw [List.mem_range'_1]
    omega
  have hpad := padWithNan_keyed (da_day_clim s) hkeysrange
  refine ⟨?_, ?_, ?_⟩
  · intro p hp hcontra
    obtain ⟨hk, _⟩ := mem_da_day_clim s p hp
    rw [hcontra] at hk
    exact hk366 hk
  · unfold da_day_clim_wnan
    rw [hpad]
    exact map_fst_keyed _ _
  · intro p hp
    unfold da_day_clim_wnan at hp
    rw [hpad] at hp
    rcases List.mem_map.mp hp with ⟨d, hd, rfl⟩
    show cfVal (da_day_clim s) nanTemplate d = none ↔ d = 366
    rw [cfVal_nanTemplate, find?_da_day_clim]
    by_cases hd366 : d = 366
    · subst hd366
      rw [if_neg hk366]
      simp
    · have hdr : d ∈ List.range' 1 365 := by
        rw [List.mem_range'_1] at hd ⊢
        omega
      rcases hcov d hdr with ⟨p0, hp0, hdp0, hv0⟩
      have hdmem : d ∈ dayKeys s := (mem_dayKeys s d).mpr ⟨p0, hp0, hdp0⟩
      rw [if_pos hdmem]
      show groupMean s d = none ↔ d = 366
      refine iff_of_false ?_ hd366
      intro hn
      unfold groupMean at hn
      rw [nanmean_eq_none_iff] at hn
      exact hv0 (hn p0.2 (List.mem_map.mpr
        ⟨p0, List.mem_filter.mpr ⟨hp0, by simp [hdp0]⟩, rfl⟩))

set_option maxRecDepth 400000 in
/-- C3 (witness): the full-coverage non-leap year 2001 with value 1. -/
theorem padded_missing_only_at_366_witness :
    (∀ p ∈ s365, 1 ≤ p.1.dayOfYear ∧ p.1.dayOfYear ≤ 365)
    ∧ (∀ p ∈ da_day_clim s365, p.1 ≠ 366)
    ∧ ((da_day_clim_wnan s365).map Prod.fst = List.range' 1 366) := by
  have hdoy : ∀ p ∈ s365, 1 ≤ p.1.dayOfYear ∧ p.1.dayOfYear ≤ 365 := by decide
  have hdoy365 : ∀ d ∈ List.range' 1 365, (dateFromDoy 2001 d).dayOfYear = d := by
    decide
  have hcov : ∀ d ∈ List.range' 1 365, ∃ p ∈ s365, p.1.dayOfYear = d ∧ p.2 ≠ none := by
    intro d hd
    exact ⟨(dateFromDoy 2001 d, some 1), List.mem_map_of_mem _ hd, hdoy365 d hd,
      by simp⟩
  have h := padded_missing_only_at_366_of_coverage s365 hdoy hcov
  exact ⟨hdoy, h.1, h.2.1⟩

set_option maxRecDepth 400000 in
/-- C3 (counterexample): a series containing no Feb 29 (its one sample is
2000-12-31) whose grouped climatology *does* contain a day-366 entry, and
whose padded climatology is missing at day 1 — refuting both "day-366 is
missing" and "exactly one missing entry, at index 366" under the claim's
no-leap-day hypothesis. -/
theorem no_feb29_does_not_imply_single_missing :
    (∀ p ∈ cex3, ¬(p.1.month = 2 ∧ p.1.day = 29))
    ∧ ((366 : Nat), (some (5:ℚ) : Val)) ∈ da_day_clim cex3
    ∧ ((1 : Nat), (none : Val)) ∈ da_day_clim_wnan cex3 := by
  refine ⟨by decide, ?_, ?_⟩
  · rw [da_day_clim_cex3]
    exact List.mem_singleton.mpr rfl
  · unfold da_day_clim_wnan
    rw [da_day_clim_cex3]
    decide

/-- C4 (amended): a requested window containing no samples — in particular
start > end — makes `sel(S=slice(...))` return an empty selection, and the
script continues with an empty ensemble-mean series; no exception is raised
at this step (there is no `EmptyWindowError` anywhere in the script). -/
theorem empty_window_returns_empty_series (e : Ensemble) (starttime endtime : Date)
    (hempty : ∀ d ∈ e.times, ¬(Date.le starttime d ∧ Date.le d endtime)) :
    (aggregate e true starttime endtime).series = [] := by
  unfold aggregate
  rw [if_pos rfl]
  apply ensMean_empty
  unfold selSliceS
  rw [List.filter_eq_nil_iff]
  intro d hd
  simpa using hempty d hd

/-- C4 (witness): the empty-window behaviour at a concrete ensemble. -/
theorem empty_window_returns_empty_series_witness :
    (∀ d ∈ cex4.times, ¬(Date.le ⟨2001, 1, 2⟩ d ∧ Date.le d ⟨2001, 1, 1⟩))
    ∧ (aggregate cex4 true ⟨2001, 1, 2⟩ ⟨2001, 1, 1⟩).series = [] := by
  have h : ∀ d ∈ cex4.times, ¬(Date.le ⟨2001, 1, 2⟩ d ∧ Date.le d ⟨2001, 1, 1⟩) := by
    decide
  exact ⟨h, empty_window_returns_empty_series cex4 _ _ h⟩

/-- C4 (counterexample): with start > end on a non-empty ensemble the
aggregation returns a normal result whose series is silently empty — and
still reports the caller's window — rather than failing. -/
theorem start_after_end_silently_empty :
    cex4.times ≠ []
    ∧ (aggregate cex4 true ⟨2001, 1, 2⟩ ⟨2001, 1, 1⟩).series = []
    ∧ (aggregate cex4 true ⟨2001, 1, 2⟩ ⟨2001, 1, 1⟩).starttime = some "2001-01-02" := by
  refine ⟨by decide, by decide, by decide⟩

/-- C8 (confirmed): with subsampling the time axis is restricted to the
closed `[starttime, endtime]` window *before* the ensemble reduction and the
caller's pair is reported; without subsampling the full axis is used and the
reported effective dates are the formatted first and last timestamps. -/
theorem aggregate_window_and_effective_dates (e : Ensemble)
    (starttime endtime : Date) (h : e.times ≠ []) :
    ((aggregate e true starttime endtime).series = ensMean (selSliceS e starttime endtime)
      ∧ (aggregate e true starttime endtime).series.map Prod.fst
          = e.times.filter (fun d => decide (Date.le starttime d ∧ Date.le d endtime))
      ∧ (aggregate e true starttime endtime).starttime = some (formatDate starttime)
      ∧ (aggregate e true starttime endtime).endtime = some (formatDate endtime))
    ∧ ((aggregate e false starttime endtime).series = ensMean e
      ∧ (aggregate e false starttime endtime).starttime
          = some (formatDate (e.times.head h))
      ∧ (aggregate e false starttime endtime).endtime
          = some (formatDate (e.times.getLast h))) := by
  refine ⟨⟨rfl, ?_, rfl, rfl⟩, rfl, ?_, ?_⟩
  · show (ensMean (selSliceS e starttime endtime)).map Prod.fst = _
    rw [ensMean_map_fst]
    rfl
  · show e.times.head?.map formatDate = some (formatDate (e.times.head h))
    rw [List.head?_eq_head h]
    rfl
  · show e.times.getLast?.map formatDate = some (formatDate (e.times.getLast h))
    rw [List.getLast?_eq_getLast _ h]
    rfl

/-- C8 (witness): the subsampled effective dates at a concrete ensemble. -/
theorem aggregate_window_and_effective_dates_witness :
    ensB.times ≠ []
    ∧ (aggregate ensB true ⟨2001, 1, 5⟩ ⟨2001, 1, 6⟩).starttime
        = some (formatDate ⟨2001, 1, 5⟩) := by
  have h : ensB.times ≠ [] := by decide
  exact ⟨h, (aggregate_window_and_effective_dates ensB ⟨2001, 1, 5⟩ ⟨2001, 1, 6⟩ h).1.2.2.1⟩

/-- C9 (confirmed): `combine_first` with the all-NaN 366-slot template keeps
every entry of the grouped climatology unchanged; only day-of-year slots
absent from the grouped result acquire the missing marker. -/
theorem padding_preserves_grouped_entries (s : List (Date × Val))
    (hv : ∀ p ∈ s, p.1.valid)
    (p : Nat × Val) (hp : p ∈ da_day_clim s)
    (d : Nat) (hd : d ∈ List.range' 1 366) (habs : ∀ q ∈ da_day_clim s, q.1 ≠ d) :
    p ∈ da_day_clim_wnan s ∧ (d, (none : Val)) ∈ da_day_clim_wnan s := by
  have hkeysrange : ∀ q ∈ da_day_clim s, q.1 ∈ List.range' 1 366 := by
    intro q hq
    obtain ⟨hk, _⟩ := mem_da_day_clim s q hq
    rcases (mem_dayKeys s q.1).mp hk with ⟨r, hr, hdr⟩
    rw [← hdr]
    exact dayOfYear_mem_range r.1 (hv r hr)
  have hpad := padWithNan_keyed (da_day_clim s) hkeysrange
  obtain ⟨hk, hval⟩ := mem_da_day_clim s p hp
  constructor
  · unfold da_day_clim_wnan
    rw [hpad]
    refine List.mem_map.mpr ⟨p.1, hkeysrange p hp, ?_⟩
    have hfind : (da_day_clim s).find? (fun q => q.1 == p.1)
        = some (p.1, groupMean s p.1) := by
      rw [find?_da_day_clim, if_pos hk]
    rw [cfVal_nanTemplate, hfind]
    show (p.1, groupMean s p.1) = p
    rw [← hval]
  · unfold da_day_clim_wnan
    rw [hpad]
    have hfindnone : (da_day_clim s).find? (fun q => q.1 == d) = none := by
      rw [find?_da_day_clim, if_neg ?_]
      intro hdk
      exact habs (d, groupMean s d) (List.mem_map_of_mem _ hdk) rfl
    have heq : ((d : Nat), (none : Val)) = (d, cfVal (da_day_clim s) nanTemplate d) := by
      rw [cfVal_nanTemplate, hfindnone]
    rw [heq]
    exact List.mem_map_of_mem _ hd

/-- C9 (witness): padding the one-day climatology of `cex1`. -/
theorem padding_preserves_grouped_entries_witness :
    ((1 : Nat), (some (5:ℚ) : Val)) ∈ da_day_clim cex1
    ∧ ((1 : Nat), (some (5:ℚ) : Val)) ∈ da_day_clim_wnan cex1
    ∧ ((2 : Nat), (none : Val)) ∈ da_day_clim_wnan cex1 := by
  have hv : ∀ p ∈ cex1, p.1.valid := by decide
  have hp : ((1 : Nat), (some (5:ℚ) : Val)) ∈ da_day_clim cex1 := by
    rw [da_day_clim_cex1]
    exact List.mem_singleton.mpr rfl
  have hd : (2 : Nat) ∈ List.range' 1 366 := by decide
  have habs : ∀ q ∈ da_day_clim cex1, q.1 ≠ 2 := by
    rw [da_day_clim_cex1]
    decide
  have h := padding_preserves_grouped_entries cex1 hv _ hp 2 hd habs
  exact ⟨hp, h.1, h.2⟩

/-- C10 (confirmed): every non-missing entry of the saved smoothed
climatology lies between the minimum and the maximum of the non-missing
entries of the padded climatology, since each pass only averages subsets of
existing values. -/
theorem smoothed_values_within_input_bounds (s : List (Date × Val)) (lo hi : ℚ)
    (hlo : lo ∈ ((da_day_clim_wnan s).map Prod.snd).filterMap id
           ∧ ∀ r ∈ ((da_day_clim_wnan s).map Prod.snd).filterMap id, lo ≤ r)
    (hhi : hi ∈ ((da_day_clim_wnan s).map Prod.snd).filterMap id
           ∧ ∀ r ∈ ((da_day_clim_wnan s).map Prod.snd).filterMap id, r ≤ hi) :
    ∀ p ∈ da_day_clim_smooth s, ∀ q : ℚ, p.2 = some q → lo ≤ q ∧ q ≤ hi := by
  intro p hp q hpq
  unfold da_day_clim_smooth selDays at hp
  rcases List.mem_map.mp hp with ⟨d, hd, rfl⟩
  rcases Option.bind_eq_some.mp hpq with ⟨pr, hfind, hpr2⟩
  obtain ⟨k, v⟩ := pr
  have hmem := List.mem_of_find?_eq_some hfind
  have hsnd := (List.of_mem_zip hmem).2
  have hbounds : ∀ r : ℚ, some r ∈ (da_day_clim_wnan s).map Prod.snd
      → lo ≤ r ∧ r ≤ hi := by
    intro r hr
    have hrv : r ∈ ((da_day_clim_wnan s).map Prod.snd).filterMap id :=
      List.mem_filterMap.mpr ⟨some r, hr, rfl⟩
    exact ⟨hlo.2 r hrv, hhi.2 r hrv⟩
  refine smoothTwice_bounds _ lo hi hbounds q ?_
  rw [← hpr2]
  exact hsnd

/-- C10 (witness): bounds at the one-sample series `cex1`. -/
theorem smoothed_values_within_input_bounds_witness :
    ((5:ℚ) ∈ ((da_day_clim_wnan cex1).map Prod.snd).filterMap id)
    ∧ ∀ p ∈ da_day_clim_smooth cex1, ∀ q : ℚ, p.2 = some q → (5:ℚ) ≤ q ∧ q ≤ (5:ℚ) := by
  have hwn : ((da_day_clim_wnan cex1).map Prod.snd).filterMap id = [5] := by
    unfold da_day_clim_wnan
    rw [da_day_clim_cex1]
    exact padded_cex1_vals
  have hlo : (5:ℚ) ∈ ((da_day_clim_wnan cex1).map Prod.snd).filterMap id
      ∧ ∀ r ∈ ((da_day_clim_wnan cex1).map Prod.snd).filterMap id, (5:ℚ) ≤ r := by
    rw [hwn]
    decide
  have hhi : (5:ℚ) ∈ ((da_day_clim_wnan cex1).map Prod.snd).filterMap id
      ∧ ∀ r ∈ ((da_day_clim_wnan cex1).map Prod.snd).filterMap id, r ≤ (5:ℚ) := by
    rw [hwn]
    decide
  exact ⟨hlo.1, smoothed_values_within_input_bounds cex1 5 5 hlo hhi⟩

end SubX
